import Mathlib

/-!
Verification of the shell's lexical/escape engine, tokenizer, dispatcher and
history reader (src/shell.c, src/utils.c) against the design specification.

The C functions are shallowly embedded as pure Lean functions over `List Char`
(a C string is modelled as the list of its characters before the terminating
NUL byte; a byte produced by an octal or hex escape is modelled as the `Char`
with that code point, reduced mod 256 exactly as the `(char)` cast does).
File contents are modelled as the list of lines that `fgets` would return.
-/

namespace Shell

/-- The double-quote character. -/
def dquote : Char := '"'

/-- The single-quote character (code point 39). -/
def squote : Char := Char.ofNat 39

/-- The backslash character. -/
def bslash : Char := '\\'

/-- C `isspace` for the default locale: space, \t, \n, \v, \f, \r. -/
def isSpaceC (c : Char) : Bool :=
  c = ' ' || c = Char.ofNat 9 || c = Char.ofNat 10 || c = Char.ofNat 11 ||
  c = Char.ofNat 12 || c = Char.ofNat 13

/-- `trimLeading` (utils.c:313-323): drop leading `isspace` characters. -/
def trimLeading (s : List Char) : List Char := s.dropWhile isSpaceC

/-- `trimTrailing` (utils.c:329-337): cut the string after the last
non-`isspace` character. -/
def trimTrailing (s : List Char) : List Char :=
  (s.reverse.dropWhile isSpaceC).reverse

/-- `trim` (utils.c:343-346): `trimLeading` then `trimTrailing`. -/
def trim (s : List Char) : List Char := trimTrailing (trimLeading s)

/-- Is `c` an octal digit (`'0'..'7'`), as tested by `unescape`. -/
def isOct (c : Char) : Bool := decide (48 ≤ c.toNat ∧ c.toNat ≤ 55)

/-- Value of an octal digit. -/
def octVal (c : Char) : Nat := c.toNat - 48

/-- Value of a hex digit as tested by `unescape` (utils.c:178-199):
`0-9`, `a-f`, `A-F`, else failure. -/
def hexVal? (c : Char) : Option Nat :=
  if 48 ≤ c.toNat ∧ c.toNat ≤ 57 then some (c.toNat - 48)
  else if 97 ≤ c.toNat ∧ c.toNat ≤ 102 then some (c.toNat - 97 + 10)
  else if 65 ≤ c.toNat ∧ c.toNat ≤ 70 then some (c.toNat - 65 + 10)
  else none

/-- The single-character escape cases of the `switch` in `unescape`
(utils.c:94-138): `n,a,b,r,\,f,v,',",?,*,$,t,space,!` map to their bytes;
`none` means the character is handled by the octal/hex/default cases. -/
def escChar? (c : Char) : Option Char :=
  if c = 'n' then some (Char.ofNat 10)
  else if c = 'a' then some (Char.ofNat 7)
  else if c = 'b' then some (Char.ofNat 8)
  else if c = 'r' then some (Char.ofNat 13)
  else if c = bslash then some bslash
  else if c = 'f' then some (Char.ofNat 12)
  else if c = 'v' then some (Char.ofNat 11)
  else if c = squote then some squote
  else if c = dquote then some dquote
  else if c = '?' then some '?'
  else if c = '*' then some '*'
  else if c = '$' then some '$'
  else if c = 't' then some (Char.ofNat 9)
  else if c = ' ' then some ' '
  else if c = '!' then some '!'
  else none

/-- The scanning loop of `unescape` (utils.c:65-248).  The second argument is
the `quoted` state variable: `none` outside quotes, `some q` inside a quote
opened by `q`.  `none` as result models `unescape` returning `NULL` (after
printing its diagnostic, for the unterminated-escape and unterminated-quote
cases).  Following the C control flow:

* outside quotes, `\` starts an escape: end of input is an error
  (`illegal escape sequence`); the recognized single-character escapes emit
  their byte; an octal digit consumes exactly three octal digits and emits
  `(char)` of the value (mod 256); `x`/`X` consumes exactly two hex digits;
  a malformed octal/hex escape fails (silently, in the C code); any other
  escaped character is copied without the backslash;
* outside quotes, an unescaped `'` or `"` opens a quote (consumed, not
  copied);
* inside a quote, `\` followed by end of input is an error
  (`invalid escape sequence`); `\` before the matching quote character emits
  just that character (and the quote stays open); `\` before any other
  character emits the backslash and then that character (utils.c:212-223,
  where the fall-through to `*unesc++ = cur` emits the second character);
* the matching quote character closes the quote (consumed, not copied);
  anything else is copied verbatim;
* end of input while a quote is open is an error (`unterminated quote`). -/
def unescapeAux : List Char → Option Char → Option (List Char)
  | [], some _ => none
  | [], none => some []
  | c :: rest, none =>
    if c = bslash then
      match rest with
      | [] => none
      | e :: rest2 =>
        if isOct e then
          match rest2 with
          | d2 :: d3 :: rest3 =>
            if isOct d2 && isOct d3 then
              Option.map
                (fun t =>
                  Char.ofNat (((octVal e <<< 6) ||| (octVal d2 <<< 3) ||| octVal d3) % 256) :: t)
                (unescapeAux rest3 none)
            else none
          | _ => none
        else if e = 'x' || e = 'X' then
          match rest2 with
          | h1 :: h2 :: rest3 =>
            match hexVal? h1, hexVal? h2 with
            | some v1, some v2 =>
              Option.map (fun t => Char.ofNat ((v1 <<< 4) ||| v2) :: t) (unescapeAux rest3 none)
            | _, _ => none
          | _ => none
        else
          match escChar? e with
          | some r => Option.map (fun t => r :: t) (unescapeAux rest2 none)
          | none => Option.map (fun t => e :: t) (unescapeAux rest2 none)
    else if c = squote || c = dquote then
      unescapeAux rest (some c)
    else
      Option.map (fun t => c :: t) (unescapeAux rest none)
  | c :: rest, some q =>
    if c = bslash then
      match rest with
      | [] => none
      | e :: rest2 =>
        if e = q then Option.map (fun t => e :: t) (unescapeAux rest2 (some q))
        else Option.map (fun t => bslash :: e :: t) (unescapeAux rest2 (some q))
    else if c = q then
      unescapeAux rest none
    else
      Option.map (fun t => c :: t) (unescapeAux rest (some q))

/-- `unescape` (utils.c:65-248): decode a raw line; `none` models the `NULL`
return after a diagnostic (or silent octal/hex failure). -/
def unescape (s : List Char) : Option (List Char) := unescapeAux s none

/-- Result of `readCommand` (shell.c:93-111).  `nullDeref` marks the control
path on which `unescape` returned `NULL`: `readCommand` then calls
`trim(command)` unconditionally (shell.c:107) and `trimLeading` reads `s[0]`
through the null pointer (utils.c:316) — a crash, not a recovered error. -/
inductive ReadCommandResult where
  | ok (command : List Char)
  | nullDeref
deriving DecidableEq

/-- `readCommand` (shell.c:93-111) after the line has been read and appended
to the history: decode with `unescape`, then `trim` the decoded command.
The decode-failure path dereferences `NULL` inside `trim`. -/
def readCommand (line : List Char) : ReadCommandResult :=
  match unescape line with
  | some cmd => ReadCommandResult.ok (trim cmd)
  | none => ReadCommandResult.nullDeref

/-- The separator test of `parse_quoted_tokens` (utils.c:362, 375, 381):
only space and tab. -/
def isSepC (c : Char) : Bool := c = ' ' || c = Char.ofNat 9

/-- The `while` loop of `parse_quoted_tokens` (utils.c:369-390), entered after
the first token has been registered.  `rem` is the rest of the buffer from
`p`; `inQ` is `in_quote`; `cnt` is `token_count` (the registered tokens are
`acc` plus the currently open one, whose scanned text so far is `cur`); the
result is the token list and the final `in_quote` flag.  A token's text is the
slice of the buffer from its start up to the position where the loop writes
`'\0'` (or to the end of the buffer if it never does), so the quote characters
the loop steps over stay in the token's text.  Each iteration:

* `*p == '"'` toggles `in_quote` and advances past the quote; the same
  iteration then tests the following character: if the flag is now off and it
  is a separator, the token is terminated there, otherwise that character is
  consumed as well (in particular, the second of two adjacent quotes is
  consumed without toggling the flag);
* otherwise a separator outside quotes terminates the token
  (`*p = '\0'`), the separator run is skipped, and the next token is
  registered if any input remains;
* any other character is consumed as token text.

The loop stops at the end of the buffer or when `token_count` reaches
`max_tokens` (the open token then extends to the end of the buffer).  `fuel`
is a structural-recursion bound: every iteration consumes at least one
character, so the initial fuel `rem.length + 1` makes the `0` branch
unreachable (a quote directly before the terminator makes the C code step
`p` one past the `'\0'`; the byte after the buffer is modelled as NUL, i.e.
the loop exits). -/
def scanLoop (max : Nat) :
    Nat → List Char → Bool → Nat → List Char → List (List Char) →
      List (List Char) × Bool
  | 0, rem, inQ, _, cur, acc => (acc ++ [cur ++ rem], inQ)
  | fuel + 1, rem, inQ, cnt, cur, acc =>
    if max ≤ cnt then (acc ++ [cur ++ rem], inQ)
    else
      match rem with
      | [] => (acc ++ [cur], inQ)
      | c :: rest =>
        if c = dquote then
          let inQ2 := !inQ
          match rest with
          | [] => (acc ++ [cur ++ [dquote]], inQ2)
          | d :: rest2 =>
            if !inQ2 && isSepC d then
              let acc2 := acc ++ [cur ++ [dquote]]
              let rest3 := rest2.dropWhile isSepC
              if rest3.isEmpty then (acc2, inQ2)
              else scanLoop max fuel rest3 inQ2 (cnt + 1) [] acc2
            else scanLoop max fuel rest2 inQ2 cnt (cur ++ [dquote, d]) acc
        else if !inQ && isSepC c then
          let acc2 := acc ++ [cur]
          let rest3 := rest.dropWhile isSepC
          if rest3.isEmpty then (acc2, inQ)
          else scanLoop max fuel rest3 inQ (cnt + 1) [] acc2
        else scanLoop max fuel rest inQ cnt (cur ++ [c]) acc

/-- `parse_quoted_tokens` (utils.c:356-402): skip leading separators; if any
input remains, register the first token and run the scan loop; if the loop
ends with `in_quote` still set, the last token is cut at its first `"`
(`strchr(tokens[token_count-1], '"')`, utils.c:393-399; when `strchr` finds
no quote the token is left as-is, which `takeWhile` also yields).  Returns
the tokens in order; the returned count is the length of this list. -/
def parse_quoted_tokens (str : List Char) (max : Nat) : List (List Char) :=
  let p := str.dropWhile isSepC
  match p with
  | [] => []
  | _ :: _ =>
    let res := scanLoop max (p.length + 1) p false 1 [] []
    if res.2 then
      res.1.dropLast ++ [(res.1.getLastD []).takeWhile (fun c => !(c = dquote))]
    else
      res.1

/-- `TOKEN_LIMIT` (utils.c:414): `getTokens` passes 1000 as `max_tokens` and
allocates 1000 pointer slots. -/
def TOKEN_LIMIT : Nat := 1000

/-- `getTokens` (utils.c:413-424): the token list produced for a command. -/
def getTokens (string : List Char) : List (List Char) :=
  parse_quoted_tokens string TOKEN_LIMIT

/-- One slot of the pointer array `getTokens` allocates: a token pointer, the
`NULL` end-of-list sentinel, or a slot `malloc` returned but nothing wrote. -/
inductive Slot where
  | tok (t : List Char)
  | nullp
  | uninit
deriving DecidableEq

/-- The 1000-slot array `getTokens` returns (utils.c:416-420): tokens at
indices `0..count-1`, the sentinel written at index `count`, the rest never
written.  The sentinel store `result[*numTokens] = NULL` is inside the
allocation only when `count < TOKEN_LIMIT`; otherwise it is an out-of-bounds
write, modelled as `none`. -/
def getTokensArray (string : List Char) : Option (List Slot) :=
  let toks := getTokens string
  if toks.length < TOKEN_LIMIT then
    some (toks.map Slot.tok ++
      Slot.nullp :: List.replicate (TOKEN_LIMIT - toks.length - 1) Slot.uninit)
  else none

/-- `getProgramName` (shell.c:390-404): the first whitespace-delimited token
of the command (the characters before the first `isspace` character). -/
def getProgramName (command : List Char) : List Char :=
  command.takeWhile (fun c => !isSpaceC c)

/-- `getArgs` (shell.c:416-431): copies the command and runs `getTokens` on
the copy, so it yields the same token list. -/
def getArgs (command : List Char) : List (List Char) := getTokens command

/-- How far `processProcread` (shell.c:438-482) gets with a given (non-NULL)
argument: the validation rejects an empty name (`file name missing`) and a
name starting with `/` (`only relative file paths are supported`); every
other name reaches `fopen` on the formatted path — `fileName` itself when it
starts with `proc/` (`strncmp`, shell.c:457), else `"/proc/" + fileName`.
Whether `fopen` then succeeds depends on the file system (`Process file not
found` on failure). -/
inductive ProcreadStep where
  | missingFileName
  | absolutePath
  | openPath (p : List Char)
deriving DecidableEq

/-- The validation and path-formatting logic of `processProcread`
(shell.c:438-464). -/
def processProcread (fileName : List Char) : ProcreadStep :=
  if fileName.length = 0 then ProcreadStep.missingFileName
  else if fileName.headD ' ' = '/' then ProcreadStep.absolutePath
  else if fileName.take 5 = "proc/".toList then ProcreadStep.openPath fileName
  else ProcreadStep.openPath ("/proc/".toList ++ fileName)

/-- POSIX-style lexical resolution of an absolute path: split on `/`, drop
empty and `.` components, and let `..` remove the previous component
(staying at the root when none remains).  Used only to state where the path
the code hands to `fopen` actually points. -/
def resolveLexical (path : List Char) : List (List Char) :=
  ((path.splitOn '/').filter (fun c => !c.isEmpty && !(c = ['.']))).foldl
    (fun st c => if c = ['.', '.'] then st.dropLast else st ++ [c]) []

/-- What `processCommand` (shell.c:542-609) decides to do with a decoded,
trimmed command. -/
inductive Action where
  | exitShell
  | procreadMissingArg
  | procreadExtraArgs
  | procreadRun (file : List Char)
  | historyBuiltin
  | spawn (command : List Char)
  | empty
deriving DecidableEq

/-- The observable outcome of `processCommand`: whether the
`ERROR: invalid command` diagnostic was printed (shell.c:595-598), and what
the dispatcher then does.  `exitShell` is the only case returning `-1` to
`commandLoop`; `spawn` is a call to `processSystemCommand`, which forks. -/
structure Dispatch where
  invalidCommandMsg : Bool
  action : Action
deriving DecidableEq

/-- `processCommand` (shell.c:542-609): `exit` is compared against the whole
command (`strcmp(command, "exit")`, shell.c:546); `procread` and `history`
are compared against the first whitespace-delimited token (shell.c:552-578);
`procread` requires exactly one argument in the token list; any other
non-empty command is passed to `processSystemCommand` — after printing
`ERROR: invalid command` when it starts with a quote character, but with no
`else`, so the spawn happens regardless (shell.c:595-600). -/
def processCommand (command : List Char) : Dispatch :=
  if command = "exit".toList then ⟨false, Action.exitShell⟩
  else if getProgramName command = "procread".toList then
    if (getArgs command).length < 2 then ⟨false, Action.procreadMissingArg⟩
    else if 2 < (getArgs command).length then ⟨false, Action.procreadExtraArgs⟩
    else ⟨false, Action.procreadRun ((getArgs command).getD 1 [])⟩
  else if getProgramName command = "history".toList then
    ⟨false, Action.historyBuiltin⟩
  else if 0 < command.length then
    ⟨command.headD ' ' = dquote || command.headD ' ' = squote,
      Action.spawn command⟩
  else ⟨false, Action.empty⟩

/-- One slot of the entry array as `printHistory` later sees it:
`live s` is a pointer to a still-allocated buffer holding `s`; `dangling s`
is a pointer whose buffer held `s` until the shift loop freed it — reading
it in `printHistory` is a use-after-free. -/
inductive Entry where
  | live (s : List Char)
  | dangling (s : List Char)
deriving DecidableEq

/-- Whether a kept slot points to a freed buffer. -/
def Entry.isDangling : Entry → Bool
  | Entry.live _ => false
  | Entry.dangling _ => true

/-- The observable outcome of `readHistory` (shell.c:216-278) when the
history file opens: `removeIndex` is the index of the
`free(result[numRead]); result[numRead] = NULL` accesses after the `numRead--`
that removes the in-flight entry (shell.c:246-249) — in bounds only when it
is non-negative; `entries` are the kept slots in array order (index `0`
first, which is the order `printHistory` prints them, shell.c:200-206), each
tagged live or dangling; and `numReturned` is the count stored through the
out-parameter. -/
structure ReadHistoryResult where
  removeIndex : Int
  entries : List Entry
  numReturned : Int
deriving DecidableEq

/-- `readHistory` (shell.c:216-278) on a history file whose lines (as `fgets`
returns them) are `fileLines`.  Each line read is copied into its own
allocation and `trimTrailing`ed (shell.c:240-242); then the last line read —
the in-flight entry appended by `readCommand` just before dispatch — is
removed unconditionally.  When more than `numEntries` lines remain, the
limit loop (shell.c:252-267) runs `i = 0..numRead-1` and, for
`i < numEntries`, does `free(result[i]); result[i] = result[i + adjust]`.
Slot `i` is only ever written at iteration `i`, so the pointer freed at
iteration `i` is the original line `i` — including, for
`adjust ≤ i < numEntries`, pointers that earlier iterations already shifted
into kept slot `i - adjust`.  After the loop, kept slot `k` holds original
line `k + adjust`, which was freed exactly when `k + adjust < numEntries`:
the first `numEntries - adjust` kept slots are `dangling` (freed buffers)
and only the last `adjust` are `live`.  (When `adjust ≥ numEntries` no kept
pointer is freed and every slot is live.)  When `numEntries ≤ 0` the C code
returns the untouched allocation and never stores to `*numReturned`; that
branch is modelled as an empty result and is not used by any claim. -/
def readHistoryC (numEntries : Int) (fileLines : List (List Char)) :
    ReadHistoryResult :=
  if 0 < numEntries then
    let readLines := fileLines.map trimTrailing
    let afterRemove : Int := (readLines.length : Int) - 1
    let kept := readLines.dropLast
    if numEntries < afterRemove then
      let adjust := afterRemove - numEntries
      let shifted := kept.drop adjust.toNat
      { removeIndex := afterRemove
        entries :=
          (shifted.take (numEntries - adjust).toNat).map Entry.dangling ++
            (shifted.drop (numEntries - adjust).toNat).map Entry.live
        numReturned := numEntries }
    else
      { removeIndex := afterRemove
        entries := kept.map Entry.live
        numReturned := afterRemove }
  else
    { removeIndex := 0, entries := [], numReturned := 0 }

/-- Twelve concrete history lines used as a witness input. -/
def twelveLines : List (List Char) :=
  ["h01".toList, "h02".toList, "h03".toList, "h04".toList, "h05".toList,
   "h06".toList, "h07".toList, "h08".toList, "h09".toList, "h10".toList,
   "h11".toList, "h12".toList]

/-- Claim C1: the claim says every decode failure is recovered at the
command-loop boundary (diagnostic on stderr, loop continues).  On the code,
an input line with an unterminated quote makes `unescape` print its
diagnostic and return `NULL`, and `readCommand` then passes that `NULL` to
`trim`, whose `trimLeading` dereferences it (shell.c:107, utils.c:316): the
shell crashes instead of continuing. -/
theorem decode_error_hits_null_deref :
    unescape "\"abc".toList = none ∧
    readCommand "\"abc".toList = ReadCommandResult.nullDeref := by
  decide

/-- Claim C2: the claim says `procread ../../etc/passwd` is rejected with
`InvalidPath`.  On the code, the dispatcher hands `../../etc/passwd` to
`processProcread`, whose only path check is for a leading `/`; it formats
`/proc/../../etc/passwd` and reaches `fopen` with it — a path that resolves
to `/etc/passwd`, outside the `/proc` root.  (`procread missingfile` does
reach `fopen("/proc/missingfile")`, whose failure is the `FileNotFound`
diagnostic, as the claim says.) -/
theorem procread_traversal_reaches_fopen :
    (processCommand "procread ../../etc/passwd".toList).action =
      Action.procreadRun "../../etc/passwd".toList ∧
    processProcread "../../etc/passwd".toList =
      ProcreadStep.openPath "/proc/../../etc/passwd".toList ∧
    processProcread "../../etc/passwd".toList ≠ ProcreadStep.absolutePath ∧
    resolveLexical "/proc/../../etc/passwd".toList =
      ["etc".toList, "passwd".toList] ∧
    processProcread "missingfile".toList =
      ProcreadStep.openPath "/proc/missingfile".toList := by
  decide

/-- Claim C3: the claim says a decoded command starting with an unescaped
quote is rejected as `InvalidCommand` and no process is spawned.  On the
code, for the command `"ls` the dispatcher prints `ERROR: invalid command`
but — the `if` at shell.c:595 has no `else` — still calls
`processSystemCommand`, which forks. -/
theorem leading_quote_diagnostic_still_spawns :
    processCommand "\"ls".toList =
      ⟨true, Action.spawn "\"ls".toList⟩ := by
  decide

/-- Claim C4, counterexample: tokenizing `  foo "bar baz"  qux` does not
yield `foo`, `bar baz`, `qux` — the scan loop of `parse_quoted_tokens` steps
over `"` without removing it from the buffer, so the middle token keeps both
quote characters. -/
theorem tokens_keep_quote_chars_cex :
    getTokens "  foo \"bar baz\"  qux".toList ≠
      ["foo".toList, "bar baz".toList, "qux".toList] := by
  decide

/-- Claim C4, amended: a `"` character toggles the double-quoted-span flag
and is skipped while scanning, but it is not removed from the token's text;
tokenizing `  foo "bar baz"  qux` yields exactly the 3 tokens `foo`,
`"bar baz"` (quote characters retained), `qux`. -/
theorem tokens_of_example_retain_quotes :
    getTokens "  foo \"bar baz\"  qux".toList =
      ["foo".toList, "\"bar baz\"".toList, "qux".toList] ∧
    dquote ∈ "\"bar baz\"".toList := by
  decide

/-- Claim C5, counterexample: the claim says a backslash-backslash pair
inside quotes decodes to a single backslash; on the code, decoding `"\\"`
(open quote, backslash, backslash, close quote) yields two backslashes —
inside a quote only the matching quote character is escaped, and
`\` before any other character is copied literally together with it. -/
theorem quoted_double_backslash_cex :
    unescape "\"\\\\\"".toList = some [bslash, bslash] ∧
    [bslash, bslash] ≠ [bslash] := by
  decide

/-- Every successful `unescape` scan emits at most as many characters as it
consumes: each iteration of the loop consumes one, two or four input
characters and emits at most as many.  Proved over the scan with an arbitrary
`quoted` state. -/
theorem unescapeAux_length_le (s : List Char) (q : Option Char) :
    ∀ r, unescapeAux s q = some r → r.length ≤ s.length := by
  induction s, q using unescapeAux.induct with
  | case1 v => intro r h; simp [unescapeAux] at h
  | case2 => intro r h; simp [unescapeAux] at h; simp [← h]
  | case3 => intro r h; simp [unescapeAux] at h
  | case4 e he d2 d3 rest3 hd ih =>
    intro r h
    rcases hu : unescapeAux rest3 none with _ | a
    · rw [unescapeAux.eq_def] at h; simp [*] at h
    · rw [unescapeAux.eq_def] at h; simp [*] at h
      have := ih a hu
      simp [← h, List.length_cons]
      omega
  | case5 e he d2 d3 rest3 hd =>
    intro r h
    rw [unescapeAux.eq_def] at h; simp [*] at h
  | case6 e rest2 he hshort =>
    intro r h
    rcases rest2 with _ | ⟨x, _ | ⟨y, t⟩⟩
    · rw [unescapeAux.eq_def] at h; simp [*] at h
    · rw [unescapeAux.eq_def] at h; simp [*] at h
    · exact (hshort x y t rfl).elim
  | case7 e he hx d2 d3 rest3 v1 v2 hv2 hv1 ih =>
    intro r h
    rcases hu : unescapeAux rest3 none with _ | a
    · rw [unescapeAux.eq_def] at h; simp [*] at h
    · rw [unescapeAux.eq_def] at h; simp [*] at h
      have := ih a hu
      simp [← h, List.length_cons]
      omega
  | case8 e he hx d2 d3 rest3 hfail =>
    intro r h
    rw [unescapeAux.eq_def] at h
    rcases hd2 : hexVal? d2 with _ | v1
    · simp [he, hx, hd2] at h
    · rcases hd3 : hexVal? d3 with _ | v2
      · simp [he, hx, hd2, hd3] at h
      · exact (hfail v1 v2 hd2 hd3).elim
  | case9 e rest2 he hx hshort =>
    intro r h
    rcases rest2 with _ | ⟨x, _ | ⟨y, t⟩⟩
    · rw [unescapeAux.eq_def] at h; simp [*] at h
    · rw [unescapeAux.eq_def] at h; simp [*] at h
    · exact (hshort x y t rfl).elim
  | case10 e rest2 he hx rr hesc ih =>
    intro r h
    rcases hu : unescapeAux rest2 none with _ | a
    · rw [unescapeAux.eq_def] at h; simp [*] at h
    · rw [unescapeAux.eq_def] at h; simp [*] at h
      have := ih a hu
      simp [← h, List.length_cons]
      omega
  | case11 e rest2 he hx hesc ih =>
    intro r h
    rcases hu : unescapeAux rest2 none with _ | a
    · rw [unescapeAux.eq_def] at h; simp [*] at h
    · rw [unescapeAux.eq_def] at h; simp [*] at h
      have := ih a hu
      simp [← h, List.length_cons]
      omega
  | case12 c rest hc hq ih =>
    intro r h
    rcases hu : unescapeAux rest (some c) with _ | a
    · rw [unescapeAux.eq_def] at h; simp [*] at h
    · rw [unescapeAux.eq_def] at h; simp [*] at h
      have := ih a hu
      simp [← h, List.length_cons]
      omega
  | case13 c rest hc hq ih =>
    intro r h
    rcases hu : unescapeAux rest none with _ | a
    · rw [unescapeAux.eq_def] at h; simp [*] at h
    · rw [unescapeAux.eq_def] at h; simp [*] at h
      have := ih a hu
      simp [← h, List.length_cons]
      omega
  | case14 q => intro r h; simp [unescapeAux] at h
  | case15 e rest2 ih =>
    intro r h
    rcases hu : unescapeAux rest2 (some e) with _ | a
    · rw [unescapeAux.eq_def] at h; simp [*] at h
    · rw [unescapeAux.eq_def] at h; simp [*] at h
      have := ih a hu
      simp [← h, List.length_cons]
      omega
  | case16 q e rest2 hne ih =>
    intro r h
    rcases hu : unescapeAux rest2 (some q) with _ | a
    · rw [unescapeAux.eq_def] at h; simp [*] at h
    · rw [unescapeAux.eq_def] at h; simp [*] at h
      have := ih a hu
      simp [← h, List.length_cons]
      omega
  | case17 rest q hqb ih =>
    intro r h
    rcases hu : unescapeAux rest none with _ | a
    · rw [unescapeAux.eq_def] at h; simp [*] at h
    · rw [unescapeAux.eq_def] at h; simp [*] at h
      have := ih a hu
      simp [← h, List.length_cons]
      omega
  | case18 c rest q hcb hcq ih =>
    intro r h
    rcases hu : unescapeAux rest (some q) with _ | a
    · rw [unescapeAux.eq_def] at h; simp [*] at h
    · rw [unescapeAux.eq_def] at h; simp [*] at h
      have := ih a hu
      simp [← h, List.length_cons]
      omega

/-- Claim C8: whenever `unescape` succeeds, the decoded string is no longer
than the input, so the single `malloc(len + 1)` (utils.c:73) always holds the
result and its terminator. -/
theorem unescape_never_lengthens (s r : List Char)
    (h : unescape s = some r) : r.length ≤ s.length :=
  unescapeAux_length_le s none r h

/-- Witness for `unescape_never_lengthens` at the input `ab\ncd`. -/
theorem unescape_never_lengthens_witness :
    unescape "ab\ncd".toList = some ['a', 'b', Char.ofNat 10, 'c', 'd'] ∧
    (['a', 'b', Char.ofNat 10, 'c', 'd'] : List Char).length ≤
      "ab\ncd".toList.length :=
  ⟨by decide, unescape_never_lengthens "ab\ncd".toList _ (by decide)⟩

/-- Claim C5, amended: during decoding, inside a quoted span a backslash
escapes only the matching quote character (copied without the backslash);
a backslash before any other character — including another backslash — is
copied literally together with that character; a backslash at end of input
is an error. -/
theorem quoted_backslash_escapes_only_quote (q e : Char) (rest : List Char)
    (hq : q = squote ∨ q = dquote) :
    unescapeAux (bslash :: e :: rest) (some q) =
      (if e = q then Option.map (fun t => e :: t) (unescapeAux rest (some q))
       else
         Option.map (fun t => bslash :: e :: t) (unescapeAux rest (some q))) ∧
    unescapeAux [bslash] (some q) = none := by
  constructor
  · by_cases he : e = q <;> simp [unescapeAux, he]
  · simp [unescapeAux]

/-- Witness for `quoted_backslash_escapes_only_quote` inside a double quote,
escaping a backslash before the closing quote. -/
theorem quoted_backslash_escapes_only_quote_witness :
    (unescapeAux (bslash :: bslash :: [dquote]) (some dquote) =
      (if bslash = dquote then
        Option.map (fun t => bslash :: t) (unescapeAux [dquote] (some dquote))
       else
         Option.map (fun t => bslash :: bslash :: t)
           (unescapeAux [dquote] (some dquote))) ∧
      unescapeAux [bslash] (some dquote) = none) :=
  quoted_backslash_escapes_only_quote dquote bslash [dquote] (Or.inr rfl)

/-- Claim C6, counterexample: a decoded command whose first
whitespace-delimited token is `exit` but which carries an argument is not
classified as the exit built-in — `processCommand` compares the whole
command with `exit` (shell.c:546) — and is dispatched to
`processSystemCommand` instead, which spawns a process. -/
theorem exit_with_args_not_builtin_cex :
    getProgramName "exit foo".toList = "exit".toList ∧
    processCommand "exit foo".toList =
      ⟨false, Action.spawn "exit foo".toList⟩ ∧
    (processCommand "exit foo".toList).action ≠ Action.exitShell := by
  decide

/-- Claim C6, amended: the dispatcher classifies a command as the exit
built-in exactly when the entire decoded command equals `exit`; only then
does it signal the control loop to terminate (return `-1`), with no process
spawned.  A command whose first token is `exit` but which has arguments is
dispatched as an external command. -/
theorem exit_builtin_iff_whole_command (command : List Char) :
    (processCommand command).action = Action.exitShell ↔
      command = "exit".toList := by
  unfold processCommand
  split_ifs with h1 h2 h3 h4 h5 h6 <;> simp_all


/-- Claim C9: with a positive requested count, `readHistory` unconditionally
removes the last line read as the in-flight entry; the
`free(result[numRead])` / `result[numRead] = NULL` pair is in bounds exactly
when the history file had at least one line, and on an empty file it
accesses index `-1` and stores `-1` through the out-parameter. -/
theorem readHistory_inflight_removal (n : Int) (file : List (List Char))
    (hn : 0 < n) :
    (readHistoryC n file).removeIndex = (file.length : Int) - 1 ∧
    (0 ≤ (readHistoryC n file).removeIndex ↔ file ≠ []) ∧
    (readHistoryC n []).removeIndex = -1 ∧
    (readHistoryC n []).numReturned = -1 := by
  have hbase : readHistoryC n [] = ⟨-1, [], -1⟩ := by
    simp only [readHistoryC, List.map_nil, List.length_nil, List.dropLast_nil]
    rw [if_pos hn, if_neg (by omega)]
    norm_num
  have hidx : (readHistoryC n file).removeIndex = (file.length : Int) - 1 := by
    simp only [readHistoryC]
    rw [if_pos hn]
    split <;> simp [List.length_map]
  refine ⟨hidx, ?_, by rw [hbase], by rw [hbase]⟩
  rw [hidx]
  constructor
  · intro h hfe
    subst hfe
    simp at h
  · intro h
    have : 0 < file.length := List.length_pos.mpr h
    omega

/-- Witness for `readHistory_inflight_removal` at count 10 with a one-line
file (and the empty file for the last two conjuncts). -/
theorem readHistory_inflight_removal_witness :
    ((readHistoryC 10 [['a']]).removeIndex =
        (([['a']] : List (List Char)).length : Int) - 1 ∧
      (0 ≤ (readHistoryC 10 [['a']]).removeIndex ↔
        ([['a']] : List (List Char)) ≠ []) ∧
      (readHistoryC 10 []).removeIndex = -1 ∧
      (readHistoryC 10 []).numReturned = -1) :=
  readHistory_inflight_removal 10 [['a']] (by decide)

/-- Claim C7: the claim says that after 12 appended lines, `history` prints
exactly the 10 most recent preceding lines, oldest first.  On the code,
`readHistory 10` reads the 13 lines (the 12 plus the just-logged `history`
line), removes the in-flight entry and takes the limit branch with
`adjust = 2` — but its loop frees `result[i]` for every `i < 10` after
iterations `0..7` already shifted pointers `2..9` into the kept slots, so
the first 8 of the 10 slots `printHistory` reads are freed buffers
(use-after-free); only the last 2 printed entries are backed by live
allocations.  The shell does not reliably print those 10 lines. -/
theorem history_shift_use_after_free :
    (readHistoryC 10 (twelveLines ++ ["history".toList])).numReturned = 10 ∧
    (readHistoryC 10 (twelveLines ++ ["history".toList])).entries =
      ((twelveLines.drop 2).take 8).map Entry.dangling ++
        (twelveLines.drop 10).map Entry.live ∧
    ((readHistoryC 10 (twelveLines ++ ["history".toList])).entries.filter
      Entry.isDangling).length = 8 := by
  decide

/-- Claim C10: `getTokens` allocates exactly `TOKEN_LIMIT = 1000` pointer
slots and writes the `NULL` sentinel at the index equal to the token count
(utils.c:416-420), so for every command with at most 999 tokens the
returned array holds the tokens followed immediately by the `NULL`
sentinel; with 1000 tokens the sentinel store would fall outside the
allocation (`getTokensArray` yields `none`). -/
theorem getTokens_sentinel_in_bounds (s : List Char)
    (h : (getTokens s).length ≤ 999) :
    ∃ arr, getTokensArray s = some arr ∧
      arr.length = TOKEN_LIMIT ∧
      arr.take (getTokens s).length = (getTokens s).map Slot.tok ∧
      arr.get? (getTokens s).length = some Slot.nullp := by
  have hlt : (getTokens s).length < TOKEN_LIMIT := by
    simp only [TOKEN_LIMIT]
    omega
  refine ⟨(getTokens s).map Slot.tok ++
      Slot.nullp :: List.replicate (TOKEN_LIMIT - (getTokens s).length - 1)
        Slot.uninit, ?_, ?_, ?_, ?_⟩
  · simp [getTokensArray, hlt]
  · simp only [List.length_append, List.length_map, List.length_cons,
      List.length_replicate]
    omega
  · exact List.take_left' (by simp)
  · rw [List.get?_append_right (by simp)]
    simp

/-- Witness for `getTokens_sentinel_in_bounds` on the command `a b`. -/
theorem getTokens_sentinel_in_bounds_witness :
    ∃ arr, getTokensArray "a b".toList = some arr ∧
      arr.length = TOKEN_LIMIT ∧
      arr.take (getTokens "a b".toList).length =
        (getTokens "a b".toList).map Slot.tok ∧
      arr.get? (getTokens "a b".toList).length = some Slot.nullp :=
  getTokens_sentinel_in_bounds "a b".toList (by decide)

end Shell
